import Mathlib

/-!
Shallow embedding of `boost::histogram::detail::static_vector<T, N>`
(src/include/boost/histogram/detail/static_vector.hpp).

The C++ object holds a raw array `element_type data_[N]` and a runtime counter
`size_type size_ = 0`.  We model the storage as a total function `Nat → T`:
slots with index `< N` correspond to the real array cells, slots `≥ N` stand
for memory the C++ code must never touch (reading or writing them would be
undefined behaviour, so every theorem that depends on in-bounds behaviour
carries the corresponding size hypothesis, mirroring the `assert(size_ <= N)`
contract of the sized constructor).  Constructors leave unwritten slots
uninitialized, so each constructor takes the (arbitrary) pre-existing memory
content `uninit : Nat → T` as an explicit parameter.
-/

structure static_vector (T : Type) (N : Nat) where
  size_ : Nat
  data_ : Nat → T

namespace static_vector

variable {T : Type} {N : Nat}

/-- Default constructor `static_vector() = default`: `size_` has the member
initializer `= 0`, the array content is left unspecified. -/
def mk_default (uninit : Nat → T) : static_vector T N :=
  ⟨0, uninit⟩

/-- Sized constructor `explicit static_vector(std::size_t s) noexcept : size_(s)`.
The contract `assert(size_ <= N)` appears as a hypothesis of the theorems. -/
def sized (s : Nat) (uninit : Nat → T) : static_vector T N :=
  ⟨s, uninit⟩

/-- Accessor `size()`: returns `size_`. -/
def size (v : static_vector T N) : Nat :=
  v.size_

/-- Accessor `max_size()`: returns the compile-time constant `N`. -/
def max_size (_v : static_vector T N) : Nat :=
  N

/-- Accessor `empty()`: returns `size_ == 0`. -/
def empty (v : static_vector T N) : Bool :=
  v.size_ == 0

/-- Unchecked `operator[](pos)`: returns `data_[pos]`.  The precondition
`pos < size()` is a caller contract (undefined behaviour when violated), so the
read is modelled as total and theorems state it only under the precondition. -/
def get (v : static_vector T N) (pos : Nat) : T :=
  v.data_ pos

/-- Checked accessor `at(pos)`: throws `std::out_of_range("pos is out of range")`
when `pos >= size()`, otherwise returns `data_[pos]`.  The throw is modelled as
`Except.error` carrying the diagnostic string. -/
def at' (v : static_vector T N) (pos : Nat) : Except String T :=
  if pos ≥ v.size then Except.error ("pos is out of range") else Except.ok (v.data_ pos)

/-- Accessor `front()`: returns `data_[0]` (precondition `size() > 0`). -/
def front (v : static_vector T N) : T :=
  v.data_ 0

/-- Accessor `back()`: returns `data_[size_ - 1]` (precondition `size() > 0`). -/
def back (v : static_vector T N) : T :=
  v.data_ (v.size_ - 1)

/-- Mutator `fill(value)`: `std::fill(begin(), end(), value)` overwrites exactly
the slots `[0, size_)` with `value`. -/
def fill (v : static_vector T N) (value : T) : static_vector T N :=
  ⟨v.size_, fun i => if i < v.size_ then value else v.data_ i⟩

/-- Sized-with-value constructor
`static_vector(std::size_t s, const T& value) : static_vector(s) { fill(value); }`. -/
def sized_fill (s : Nat) (value : T) (uninit : Nat → T) : static_vector T N :=
  fill (sized s uninit) value

/-- Initializer-list constructor
`static_vector(std::initializer_list<T> il) : static_vector(il.size())` followed by
`std::copy(il.begin(), il.end(), data_)`: the first `il.length` slots receive the
list elements in order; the remaining slots keep their previous content. -/
def of_list (il : List T) (uninit : Nat → T) : static_vector T N :=
  ⟨il.length, fun i => il.getD i (uninit i)⟩

/-- A write through the unchecked `operator[]` reference: `v[pos] = x`.
Precondition `pos < size()` is a caller contract, as for `get`. -/
def set (v : static_vector T N) (pos : Nat) (x : T) : static_vector T N :=
  ⟨v.size_, Function.update v.data_ pos x⟩

/-- The loop body of `swap`: `for (auto i = begin(), j = other.begin(),
end = begin() + s; i != end; ++i, ++j) swap(*i, *j);` — after `s` iterations the
slots `0, 1, …, s-1` of the two storage functions have been exchanged pairwise,
one index per iteration, in increasing index order. -/
def swapTo (f g : Nat → T) : Nat → (Nat → T) × (Nat → T)
  | 0 => (f, g)
  | s + 1 =>
    let p := swapTo f g s
    (Function.update p.1 s (p.2 s), Function.update p.2 s (p.1 s))

/-- Member `swap(other)`: computes `s = max(size(), other.size())`, exchanges the
storage slots `[0, s)` pairwise, then exchanges the two `size_` fields.  Returns
the pair (new `*this`, new `other`). -/
def swap (a b : static_vector T N) : static_vector T N × static_vector T N :=
  let s := max a.size b.size
  let p := swapTo a.data_ b.data_ s
  (⟨b.size_, p.1⟩, ⟨a.size_, p.2⟩)

/-- The live range `[begin(), end()) = [data_, data_ + size_)` as a list; this is
the range the free `operator==` compares. -/
def toList (v : static_vector T N) : List T :=
  (List.range v.size_).map v.data_

/-- Free `operator==`: `std::equal(a.begin(), a.end(), b.begin(), b.end())`, the
four-iterator overload, i.e. the two live ranges are equal as sequences. -/
def eq_op [DecidableEq T] (a b : static_vector T N) : Bool :=
  decide (toList a = toList b)

/-- Free `operator!=`: `!(a == b)`. -/
def ne_op [DecidableEq T] (a b : static_vector T N) : Bool :=
  !(eq_op a b)

theorem swapTo_apply (f g : Nat → T) :
    ∀ s i, (swapTo f g s).1 i = (if i < s then g i else f i) ∧
      (swapTo f g s).2 i = (if i < s then f i else g i) := by
  intro s
  induction s with
  | zero =>
    intro i
    simp [swapTo]
  | succ s ih =>
    intro i
    rcases eq_or_ne i s with hi | hi
    · subst hi
      constructor
      · rw [show (swapTo f g (i + 1)).1 =
            Function.update (swapTo f g i).1 i ((swapTo f g i).2 i) from rfl]
        rw [Function.update_same, (ih i).2, if_neg (Nat.lt_irrefl i),
          if_pos (Nat.lt_succ_self i)]
      · rw [show (swapTo f g (i + 1)).2 =
            Function.update (swapTo f g i).2 i ((swapTo f g i).1 i) from rfl]
        rw [Function.update_same, (ih i).1, if_neg (Nat.lt_irrefl i),
          if_pos (Nat.lt_succ_self i)]
    · have hiff : i < s + 1 ↔ i < s := by omega
      constructor
      · rw [show (swapTo f g (s + 1)).1 =
            Function.update (swapTo f g s).1 s ((swapTo f g s).2 s) from rfl]
        rw [Function.update_noteq hi, (ih i).1]
        simp [hiff]
      · rw [show (swapTo f g (s + 1)).2 =
            Function.update (swapTo f g s).2 s ((swapTo f g s).1 s) from rfl]
        rw [Function.update_noteq hi, (ih i).2]
        simp [hiff]

theorem swap_fst_size (a b : static_vector T N) : (swap a b).1.size = b.size :=
  rfl

theorem swap_snd_size (a b : static_vector T N) : (swap a b).2.size = a.size :=
  rfl

theorem swap_fst_data (a b : static_vector T N) (i : Nat) :
    (swap a b).1.data_ i = if i < max a.size b.size then b.data_ i else a.data_ i :=
  (swapTo_apply a.data_ b.data_ (max a.size b.size) i).1

theorem swap_snd_data (a b : static_vector T N) (i : Nat) :
    (swap a b).2.data_ i = if i < max a.size b.size then a.data_ i else b.data_ i :=
  (swapTo_apply a.data_ b.data_ (max a.size b.size) i).2

theorem toList_length (v : static_vector T N) : (toList v).length = v.size := by
  simp [toList, size]

theorem toList_getElem (v : static_vector T N) (i : Nat) (h : i < (toList v).length) :
    (toList v).get ⟨i, h⟩ = v.data_ i := by
  simp [toList]

theorem toList_eq_iff (a b : static_vector T N) :
    toList a = toList b ↔
      a.size = b.size ∧ ∀ i, i < a.size → a.data_ i = b.data_ i := by
  constructor
  · intro h
    have hlen : a.size = b.size := by
      rw [← toList_length, ← toList_length, h]
    refine ⟨hlen, fun i hi => ?_⟩
    have hi1 : i < (toList a).length := by rw [toList_length]; exact hi
    have hi2 : i < (toList b).length := by rw [toList_length, ← hlen]; exact hi
    rw [← toList_getElem a i hi1, ← toList_getElem b i hi2]
    simp [h]
  · rintro ⟨hlen, hdata⟩
    apply List.ext_get
    · rw [toList_length, toList_length, hlen]
    · intro i h1 h2
      rw [toList_getElem a i h1, toList_getElem b i h2]
      exact hdata i (by rw [← toList_length]; exact h1)

theorem ext_elems {v w : static_vector T N}
    (hs : v.size_ = w.size_) (hd : ∀ i, v.data_ i = w.data_ i) : v = w := by
  cases v
  cases w
  simp only [mk.injEq]
  exact ⟨hs, funext hd⟩

end static_vector

/-- Example instance with live elements 1, 2, 3 in a capacity-4 vector, built on
zeroed memory; used to instantiate universally quantified theorems. -/
def exA : static_vector Nat 4 :=
  static_vector.of_list [1, 2, 3] (fun _ => 0)

/-- Example instance with live elements 5, 6 in a capacity-4 vector. -/
def exB : static_vector Nat 4 :=
  static_vector.of_list [5, 6] (fun _ => 0)

/-- Claim C1: after `a.swap(b)`, for all `i < a.size()` (post-swap) `a[i]` equals the
value `b` held at index `i` before the swap, and symmetrically for `b`; the operation
exchanges storage slots pairwise over the union range `[0, max(old sizes))` and then
exchanges the two length fields. -/
theorem swap_content_exchange {T : Type} {N : Nat} (a b : static_vector T N) :
    (∀ i, i < (static_vector.swap a b).1.size →
        (static_vector.swap a b).1.get i = b.get i) ∧
    (∀ i, i < (static_vector.swap a b).2.size →
        (static_vector.swap a b).2.get i = a.get i) ∧
    (∀ i, i < max a.size b.size →
        (static_vector.swap a b).1.data_ i = b.data_ i ∧
        (static_vector.swap a b).2.data_ i = a.data_ i) ∧
    (static_vector.swap a b).1.size = b.size ∧
    (static_vector.swap a b).2.size = a.size := by
  refine ⟨?_, ?_, ?_, rfl, rfl⟩
  · intro i hi
    rw [static_vector.swap_fst_size] at hi
    have hi' : i < max a.size b.size := lt_of_lt_of_le hi (le_max_right _ _)
    show (static_vector.swap a b).1.data_ i = b.data_ i
    rw [static_vector.swap_fst_data, if_pos hi']
  · intro i hi
    rw [static_vector.swap_snd_size] at hi
    have hi' : i < max a.size b.size := lt_of_lt_of_le hi (le_max_left _ _)
    show (static_vector.swap a b).2.data_ i = a.data_ i
    rw [static_vector.swap_snd_data, if_pos hi']
  · intro i hi
    rw [static_vector.swap_fst_data, static_vector.swap_snd_data, if_pos hi, if_pos hi]
    exact ⟨rfl, rfl⟩

/-- Witness for C1 at the concrete pair `exA`, `exB`. -/
theorem swap_content_exchange_witness :
    (0 < (static_vector.swap exA exB).1.size ∧
      (static_vector.swap exA exB).1.get 0 = exB.get 0) ∧
    (2 < (static_vector.swap exA exB).2.size ∧
      (static_vector.swap exA exB).2.get 2 = exA.get 2) ∧
    (2 < max exA.size exB.size ∧
      (static_vector.swap exA exB).1.data_ 2 = exB.data_ 2) :=
  ⟨⟨by decide, (swap_content_exchange exA exB).1 0 (by decide)⟩,
   ⟨by decide, (swap_content_exchange exA exB).2.1 2 (by decide)⟩,
   ⟨by decide, ((swap_content_exchange exA exB).2.2.1 2 (by decide)).1⟩⟩

/-- Claim C2: after `a.swap(b)`, `a.size()` equals the old `b.size()` and `b.size()`
equals the old `a.size()`. -/
theorem swap_size_exchange {T : Type} {N : Nat} (a b : static_vector T N) :
    (static_vector.swap a b).1.size = b.size ∧
    (static_vector.swap a b).2.size = a.size :=
  ⟨rfl, rfl⟩

/-- Claim C9: performing `a.swap(b)` twice restores both operands exactly: both size
fields and every storage slot (in particular the whole union range
`[0, max(original sizes))`). -/
theorem swap_involution {T : Type} {N : Nat} (a b : static_vector T N) :
    static_vector.swap (static_vector.swap a b).1 (static_vector.swap a b).2 = (a, b) := by
  refine Prod.ext ?_ ?_
  · apply static_vector.ext_elems
    · rfl
    · intro i
      rw [static_vector.swap_fst_data, static_vector.swap_snd_data,
        static_vector.swap_fst_data]
      rw [show max (static_vector.swap a b).1.size (static_vector.swap a b).2.size
            = max a.size b.size from Nat.max_comm _ _]
      by_cases hi : i < max a.size b.size <;> simp [hi]
  · apply static_vector.ext_elems
    · rfl
    · intro i
      rw [static_vector.swap_snd_data, static_vector.swap_snd_data,
        static_vector.swap_fst_data]
      rw [show max (static_vector.swap a b).1.size (static_vector.swap a b).2.size
            = max a.size b.size from Nat.max_comm _ _]
      by_cases hi : i < max a.size b.size <;> simp [hi]

/-- Claim C3: `at(pos)` with `pos ≥ size()` fails with a reportable out-of-range
error carrying the diagnostic message, leaving the instance unchanged (it is a
non-mutating accessor, modelled as a pure function of the instance); with
`pos < size()` it returns the same element as the unchecked `operator[](pos)`. -/
theorem at_checked_access {T : Type} {N : Nat} (v : static_vector T N) (pos : Nat) :
    (pos ≥ v.size → v.at' pos = Except.error ("pos is out of range")) ∧
    (pos < v.size → v.at' pos = Except.ok (v.get pos)) := by
  constructor
  · intro h
    rw [static_vector.at', if_pos h]
  · intro h
    rw [static_vector.at', if_neg (Nat.not_le.mpr h)]
    rfl

/-- Witness for C3 at `exA` (size 3): position 3 is rejected, position 1 agrees with
the unchecked accessor. -/
theorem at_checked_access_witness :
    (3 ≥ exA.size ∧ exA.at' 3 = Except.error ("pos is out of range")) ∧
    (1 < exA.size ∧ exA.at' 1 = Except.ok (exA.get 1)) :=
  ⟨⟨by decide, (at_checked_access exA 3).1 (by decide)⟩,
   ⟨by decide, (at_checked_access exA 1).2 (by decide)⟩⟩

/-- Claim C4: `a == b` holds iff the sizes are equal and the live elements agree
pairwise at every index; `a != b` is the logical negation; equality is reflexive and
symmetric. -/
theorem eq_op_semantics {T : Type} {N : Nat} [DecidableEq T] (a b : static_vector T N) :
    (static_vector.eq_op a b = true ↔
      a.size = b.size ∧ ∀ i, i < a.size → a.get i = b.get i) ∧
    static_vector.ne_op a b = !(static_vector.eq_op a b) ∧
    static_vector.eq_op a a = true ∧
    static_vector.eq_op a b = static_vector.eq_op b a := by
  refine ⟨?_, rfl, ?_, ?_⟩
  · rw [static_vector.eq_op, decide_eq_true_iff]
    exact static_vector.toList_eq_iff a b
  · rw [static_vector.eq_op, decide_eq_true_iff]
  · rw [static_vector.eq_op, static_vector.eq_op]
    exact decide_eq_decide.mpr eq_comm

/-- Witness for C4 at `exA`, `exB` (the interesting direction of the iff applied at a
pair with different sizes, plus reflexivity at `exA`). -/
theorem eq_op_semantics_witness :
    static_vector.eq_op exA exA = true ∧
    static_vector.ne_op exA exB = !(static_vector.eq_op exA exB) ∧
    (exA.size = exA.size ∧ ∀ i, i < exA.size → exA.get i = exA.get i) :=
  ⟨(eq_op_semantics exA exA).2.2.1,
   (eq_op_semantics exA exB).2.1,
   (eq_op_semantics exA exA).1.mp (eq_op_semantics exA exA).2.2.1⟩

/-- Claim C10: `operator==` depends only on the size field and the storage slots
below it: two instances that agree on size and on every live slot compare equally
against every third instance, even when their dead slots differ. -/
theorem eq_op_ignores_dead_slots {T : Type} {N : Nat} [DecidableEq T]
    (a a' b : static_vector T N)
    (hsize : a.size = a'.size)
    (hdata : ∀ i, i < a.size → a.data_ i = a'.data_ i) :
    static_vector.eq_op a b = static_vector.eq_op a' b := by
  have ht : static_vector.toList a = static_vector.toList a' :=
    (static_vector.toList_eq_iff a a').mpr ⟨hsize, hdata⟩
  rw [static_vector.eq_op, static_vector.eq_op, ht]

/-- Example instance with the same size and live elements as `exA` but different
dead-slot contents (memory filled with 7 instead of 0). -/
def exA' : static_vector Nat 4 :=
  static_vector.of_list [1, 2, 3] (fun _ => 7)

/-- Witness for C10: `exA` and `exA'` differ in a dead slot yet compare the same way
against `exB`. -/
theorem eq_op_ignores_dead_slots_witness :
    exA.size = exA'.size ∧
    (∀ i, i < exA.size → exA.data_ i = exA'.data_ i) ∧
    exA.data_ 3 ≠ exA'.data_ 3 ∧
    static_vector.eq_op exA exB = static_vector.eq_op exA' exB :=
  ⟨by decide, by decide, by decide,
   eq_op_ignores_dead_slots exA exA' exB (by decide) (by decide)⟩

/-- Claim C5: every valid construction (default; sized with `s ≤ N`; sized-with-value
with `s ≤ N`; from a list of at most `N` items) and every subsequent operation (fill,
indexed write, swap) keeps `size() ≤ max_size()`, and `max_size()` returns the
compile-time constant `N` regardless of content. -/
theorem capacity_invariant {T : Type} {N : Nat} (s pos : Nat) (value x : T)
    (uninit : Nat → T) (il : List T) (a b : static_vector T N)
    (hs : s ≤ N) (hil : il.length ≤ N) (ha : a.size ≤ N) (hb : b.size ≤ N) :
    (static_vector.mk_default uninit : static_vector T N).size
      ≤ (static_vector.mk_default uninit : static_vector T N).max_size ∧
    (static_vector.sized s uninit : static_vector T N).size
      ≤ (static_vector.sized s uninit : static_vector T N).max_size ∧
    (static_vector.sized_fill s value uninit : static_vector T N).size
      ≤ (static_vector.sized_fill s value uninit : static_vector T N).max_size ∧
    (static_vector.of_list il uninit : static_vector T N).size
      ≤ (static_vector.of_list il uninit : static_vector T N).max_size ∧
    (a.fill value).size ≤ (a.fill value).max_size ∧
    (a.set pos x).size ≤ (a.set pos x).max_size ∧
    (static_vector.swap a b).1.size ≤ (static_vector.swap a b).1.max_size ∧
    (static_vector.swap a b).2.size ≤ (static_vector.swap a b).2.max_size ∧
    a.max_size = N :=
  ⟨Nat.zero_le N, hs, hs, hil, ha, ha, hb, ha, rfl⟩

/-- Witness for C5 at concrete instances of capacity 4. -/
theorem capacity_invariant_witness :
    (2 ≤ 4 ∧ ([1, 2] : List Nat).length ≤ 4 ∧ exA.size ≤ 4 ∧ exB.size ≤ 4) ∧
    (static_vector.swap exA exB).1.size ≤ (static_vector.swap exA exB).1.max_size ∧
    exA.max_size = 4 :=
  ⟨⟨by decide, by decide, by decide, by decide⟩,
   (capacity_invariant 2 1 5 6 (fun _ => 0) [1, 2] exA exB (by decide) (by decide)
      (by decide) (by decide)).2.2.2.2.2.2.1,
   (capacity_invariant 2 1 5 6 (fun _ => 0) [1, 2] exA exB (by decide) (by decide)
      (by decide) (by decide)).2.2.2.2.2.2.2.2⟩

/-- Claim C6: after `fill(v)` every live element equals `v`, the size is unchanged,
and the call is a no-op when the size is 0. -/
theorem fill_correctness {T : Type} {N : Nat} (v : static_vector T N) (value : T) :
    (∀ i, i < (v.fill value).size → (v.fill value).get i = value) ∧
    (v.fill value).size = v.size ∧
    (v.size = 0 → v.fill value = v) := by
  refine ⟨?_, rfl, ?_⟩
  · intro i hi
    show (if i < v.size_ then value else v.data_ i) = value
    exact if_pos hi
  · intro h0
    have h0' : v.size_ = 0 := h0
    apply static_vector.ext_elems
    · rfl
    · intro i
      show (if i < v.size_ then value else v.data_ i) = v.data_ i
      rw [if_neg (by omega)]

/-- Witness for C6: fill `exA` with 9 (live elements become 9), and fill an empty
vector (no-op). -/
theorem fill_correctness_witness :
    (0 < (exA.fill 9).size ∧ (exA.fill 9).get 0 = 9) ∧
    (exA.fill 9).size = exA.size ∧
    ((static_vector.mk_default (fun _ => 0) : static_vector Nat 4).size = 0 ∧
      (static_vector.mk_default (fun _ => 0) : static_vector Nat 4).fill 9
        = static_vector.mk_default (fun _ => 0)) :=
  ⟨⟨by decide, (fill_correctness exA 9).1 0 (by decide)⟩,
   (fill_correctness exA 9).2.1,
   ⟨by decide, (fill_correctness (static_vector.mk_default (fun _ => 0)) 9).2.2 (by decide)⟩⟩

/-- Claim C7: constructing from a literal sequence of `k ≤ N` elements yields
`size() = k` and, for all `i < k`, element `i` equal to the `i`-th input element. -/
theorem of_list_construction {T : Type} {N : Nat} (il : List T) (uninit : Nat → T)
    (h : il.length ≤ N) :
    (static_vector.of_list il uninit : static_vector T N).size = il.length ∧
    ∀ i, (hi : i < il.length) →
      (static_vector.of_list il uninit : static_vector T N).get i = il.get ⟨i, hi⟩ := by
  refine ⟨rfl, ?_⟩
  intro i hi
  show il.getD i (uninit i) = il.get ⟨i, hi⟩
  exact List.getD_eq_get _ _ hi

/-- Witness for C7 at the literal list `[1, 2, 3]` with capacity 4. -/
theorem of_list_construction_witness :
    ([1, 2, 3] : List Nat).length ≤ 4 ∧
    (static_vector.of_list [1, 2, 3] (fun _ => 0) : static_vector Nat 4).size = 3 ∧
    (static_vector.of_list [1, 2, 3] (fun _ => 0) : static_vector Nat 4).get 1
      = ([1, 2, 3] : List Nat).get ⟨1, by decide⟩ :=
  ⟨by decide,
   (of_list_construction [1, 2, 3] (fun _ => 0) (by decide)).1,
   (of_list_construction [1, 2, 3] (fun _ => 0) (by decide)).2 1 (by decide)⟩

/-- Claim C8: end-to-end scenario with capacity 4: the vector built from `{1,2,3}`
has size 3, front 1, back 3 and `at(3)` reports out-of-range; after `fill(9)` its
live contents are `{9,9,9}`; swapping it with a second capacity-4 vector built from
`{5,6}` leaves the first equal to `{5,6}` (size 2) and the second equal to `{9,9,9}`
(size 3). -/
theorem scenario_end_to_end :
    exA.size = 3 ∧
    exA.front = 1 ∧
    exA.back = 3 ∧
    exA.at' 3 = Except.error ("pos is out of range") ∧
    static_vector.toList (exA.fill 9) = [9, 9, 9] ∧
    static_vector.toList (static_vector.swap (exA.fill 9) exB).1 = [5, 6] ∧
    (static_vector.swap (exA.fill 9) exB).1.size = 2 ∧
    static_vector.eq_op (static_vector.swap (exA.fill 9) exB).1
      (static_vector.of_list [5, 6] (fun _ => 0)) = true ∧
    static_vector.toList (static_vector.swap (exA.fill 9) exB).2 = [9, 9, 9] ∧
    (static_vector.swap (exA.fill 9) exB).2.size = 3 ∧
    static_vector.eq_op (static_vector.swap (exA.fill 9) exB).2
      (static_vector.of_list [9, 9, 9] (fun _ => 0)) = true :=
  ⟨rfl, rfl, rfl, rfl, by decide, by decide, rfl, by decide, by decide, rfl, by decide⟩
